import Mathlib

/-!
Verification of the secure-wiping core (`src/core.rs`) of the
Secure-Data-Wiping-for-Trustworthy-IT-Asset-Recycling repository.

The Rust functions of `src/core.rs` are embedded shallowly:

* pure loops (`fill_with_random_data`, `verify_wipe`,
  `generate_random_passphrase`, `generate_completion_certificate`) become
  Lean functions over `Nat` / `List` / `String`;
* the effectful pipeline `perform_luks_crypto_wipe` becomes a function from
  an environment (the outcomes of the external `cryptsetup` / `dd` /
  `umount` primitives, the random source, the device size and the bytes the
  verification pass reads) to the list of emitted events (progress
  callbacks and external-command invocations) together with the
  `io::Result` value;
* `auto_unmount_device` becomes a state-passing function over the mount
  table, recording every spawned command (`findmnt`, `umount`, `lsblk`) as
  a `(program, args)` pair;
* progress fractions, `f32` in the source, are modelled as rationals: every
  constant the source passes to the callback (0.0, 0.05, 0.10, 0.20, 0.25,
  0.75, 0.80, 0.90, 1.0) is exactly representable in `f32`, the fill /
  verify fractions `bytes as f32 / device_size as f32` are quotients of the
  modelled integers, and all `f32` operations involved are monotone, so
  order relations and the exact terminal value 1.0 carry over.
-/

namespace CoreWipe

/-! ## fill_with_random_data (src/core.rs lines 280-313) -/

/-- Overwrite block size: `let block_size = 1024 * 1024;` (1 MiB). -/
def blockSize : Nat := 1024 * 1024

/-- One step of the `while bytes_written < device_size` loop of
`fill_with_random_data`: each iteration writes
`write_size = if remaining < block_size { remaining } else { block_size }`
bytes.  The result pairs each write size with the cumulative
`bytes_written` value after the write (the value used for the progress
callback).  `fuel` bounds the iteration count; since every iteration writes
at least one byte, `fuel = total` always suffices. -/
def fillSteps : Nat → Nat → Nat → List (Nat × Nat)
  | 0, _, _ => []
  | fuel+1, written, total =>
    if written < total then
      let remaining := total - written
      let writeSize := if remaining < blockSize then remaining else blockSize
      (writeSize, written + writeSize) :: fillSteps fuel (written + writeSize) total
    else []

/-- The sequence of write sizes `fill_with_random_data` issues for a device
of `deviceSize` bytes (the content of each write is fresh random data and
is irrelevant to the write schedule). -/
def fill_with_random_data (deviceSize : Nat) : List Nat :=
  (fillSteps deviceSize 0 deviceSize).map Prod.fst

/-- Cumulative `bytes_written` value after each write of
`fill_with_random_data`. -/
def fillCums (deviceSize : Nat) : List Nat :=
  (fillSteps deviceSize 0 deviceSize).map Prod.snd

/-! ## verify_wipe (src/core.rs lines 351-389) -/

/-- The `while bytes_read < device_size` loop of `verify_wipe`.  The device
contents are the byte list `content` (a byte is a `Nat`); each iteration
reads `read_size = min remaining blockSize` bytes (fewer if the device is
exhausted, in which case the actual short read is returned; on a zero-byte
read the loop breaks).  Returns the cumulative `bytes_read` value after
each read (the progress numerator) together with the final value of the
`last_nonzero` flag, which is set when a block contains a non-zero byte and
is never reset. -/
def verifyLoop : Nat → Nat → Nat → List Nat → List Nat × Bool
  | 0, _, _, _ => ([], false)
  | fuel+1, bytesRead, total, content =>
    if bytesRead < total then
      let remaining := total - bytesRead
      let readSize := if remaining < blockSize then remaining else blockSize
      let chunk := content.take readSize
      if chunk.length = 0 then ([], false)
      else
        let r := verifyLoop fuel (bytesRead + chunk.length) total (content.drop readSize)
        ((bytesRead + chunk.length) :: r.1, chunk.any (· ≠ 0) || r.2)
    else ([], false)

/-- `verify_wipe` on a device whose bytes are `content` (the loop bound
`device_size` is the device's length, obtained by `get_device_size`).
Returns the cumulative read counts (progress numerators) and the
`io::Result`: an error exactly when the accumulated non-zero flag is set at
the end. -/
def verify_wipe (content : List Nat) : List Nat × Except String Unit :=
  let r := verifyLoop content.length 0 content.length content
  (r.1, if r.2 then .error "Verification failed: non-zero data found" else .ok ())

/-! ## generate_random_passphrase (src/core.rs lines 214-223) -/

/-- The fixed character set of `generate_random_passphrase`. -/
def charset : String :=
  "ABCDEFGHIJKLMNOPQRSTUVWXYZabcdefghijklmnopqrstuvwxyz0123456789!@#$%^&*"

/-- `generate_random_passphrase`: 64 characters, each
`charset.chars().nth(idx)` where `idx = rng.gen_range(0..charset.len())`.
The random source is modelled as a function `rng : Nat → Nat` giving the
raw draw of each round; `gen_range`'s guarantee that the draw lies in
`0..charset.len()` is modelled by reducing it modulo `charset.length`. -/
def generate_random_passphrase (rng : Nat → Nat) : String :=
  String.mk ((List.range 64).map (fun i => charset.data.getD (rng i % charset.length) 'A'))

/-! ## generate_completion_certificate (src/core.rs lines 391-410) -/

/-- The `WipeCertificate` struct (src/core.rs lines 8-19). -/
structure WipeCertificate where
  operation_id : String
  device : String
  method : String
  key_size : Nat
  hash_algorithm : String
  process_steps : List String
  security_status : String
  completion_time : String
  verification_status : String
  deriving DecidableEq

/-- The struct value `generate_completion_certificate` builds: every field
other than the operation id, the device path and the completion timestamp
is a hard-coded constant. -/
def generate_completion_certificate_struct (device wipeId now : String) : WipeCertificate :=
  { operation_id := wipeId
    device := device
    method := "LUKS2 AES-XTS-256 Encryption"
    key_size := 512
    hash_algorithm := "SHA-256"
    process_steps :=
      [ "LUKS encryption applied"
      , "Filled with encrypted random data"
      , "Encryption keys destroyed"
      , "LUKS header overwritten" ]
    security_status := "Data is cryptographically unrecoverable"
    completion_time := now
    verification_status := "VERIFIED SECURE" }

/-- Lower-case hexadecimal digit, for JSON control-character escapes. -/
def hexDigit (n : Nat) : Char :=
  if n < 10 then Char.ofNat (48 + n) else Char.ofNat (87 + n)

/-- JSON string escaping as performed by `serde_json::to_string_pretty`:
a double quote and a backslash get a backslash prefix, the control
characters BS, TAB, LF, FF, CR get their short escapes, the remaining
control characters below 0x20 become `\u00xx`, and every other character
is emitted unchanged. -/
def escapeChar (c : Char) : List Char :=
  if c = '"' then ['\\', '"']
  else if c = '\\' then ['\\', '\\']
  else if c.toNat = 8 then ['\\', 'b']
  else if c.toNat = 9 then ['\\', 't']
  else if c.toNat = 10 then ['\\', 'n']
  else if c.toNat = 12 then ['\\', 'f']
  else if c.toNat = 13 then ['\\', 'r']
  else if c.toNat < 32 then
    ['\\', 'u', '0', '0', hexDigit (c.toNat / 16), hexDigit (c.toNat % 16)]
  else [c]

/-- JSON escaping of a whole string. -/
def jsonEscape (s : String) : String := String.mk (s.data.flatMap escapeChar)

/-- Rendering of the `process_steps` array items in
`serde_json::to_string_pretty` layout (4-space indent, comma after every
item but the last). -/
def renderSteps : List String → String
  | [] => ""
  | [s] => "    \"" ++ jsonEscape s ++ "\"\n"
  | s :: rest => "    \"" ++ jsonEscape s ++ "\",\n" ++ renderSteps rest

/-- `serde_json::to_string_pretty` of a `WipeCertificate` (2-space indent,
fields in declaration order). -/
def renderStruct (c : WipeCertificate) : String :=
  "\x7b\n  \"operation_id\": \"" ++ jsonEscape c.operation_id
  ++ "\",\n  \"device\": \"" ++ jsonEscape c.device
  ++ "\",\n  \"method\": \"" ++ jsonEscape c.method
  ++ "\",\n  \"key_size\": " ++ toString c.key_size
  ++ ",\n  \"hash_algorithm\": \"" ++ jsonEscape c.hash_algorithm
  ++ "\",\n  \"process_steps\": [\n" ++ renderSteps c.process_steps
  ++ "  ],\n  \"security_status\": \"" ++ jsonEscape c.security_status
  ++ "\",\n  \"completion_time\": \"" ++ jsonEscape c.completion_time
  ++ "\",\n  \"verification_status\": \"" ++ jsonEscape c.verification_status
  ++ "\"\n\x7d"

/-- `generate_completion_certificate`: the rendered certificate text.  Its
only inputs are the device path and the operation id, plus the completion
timestamp taken from the clock (`chrono::Utc::now()`), modelled as the
argument `now`. -/
def generate_completion_certificate (device wipeId now : String) : String :=
  renderStruct (generate_completion_certificate_struct device wipeId now)

/-! ## perform_luks_crypto_wipe (src/core.rs lines 142-212)

The pipeline drives the external primitives (`auto_unmount_device`, the
`cryptsetup` format / open / close calls, the `dd` header destruction) and
the overwrite / verification loops, emitting progress callbacks.  The
outcomes of the external primitives, the random source, the device size and
the bytes the verification pass reads are supplied by an `Env`.  The
pipeline is modelled as a function returning the list of emitted events in
order, together with the `io::Result<String>` value. -/

/-- Observable events of one wipe session: progress callbacks plus the
external destructive or preparatory operations, in emission order. -/
inductive Event where
  /-- `progress_callback(frac, msg)` -/
  | progress (frac : ℚ) (msg : String)
  /-- `auto_unmount_device(device)` -/
  | unmount (dev : String)
  /-- the 2-second settle sleep for removable devices -/
  | settle
  /-- `cryptsetup luksFormat ... device` with the passphrase on stdin -/
  | luksFormat (dev pass : String)
  /-- `cryptsetup luksOpen device mapper` with the passphrase on stdin -/
  | luksOpen (dev mapper pass : String)
  /-- `cryptsetup luksClose mapper` -/
  | luksClose (mapper : String)
  /-- `dd if=src of=dev bs=1M count=10 conv=notrunc`: `bytes` fresh bytes
  from `src` over the leading region of `dev` -/
  | destroyHeader (dev src : String) (bytes : Nat)
  deriving DecidableEq

/-- Outcomes of the external primitives and of the environment-supplied
inputs for one session.  `formatOk n` is the outcome the `cryptsetup
luksFormat` invocation would have on its `n`-th attempt (the code makes a
single attempt, consulting index 0); the `*Err` fields are the stderr
diagnostics attached to failures.  `rng` is the thread random source;
`postContent` is the byte sequence the raw device yields when the
verification pass reads it back. -/
structure Env where
  wipeId : String
  wipeIdSimple : String
  now : String
  deviceSize : Nat
  removable : Bool
  unmountOk : Bool
  formatOk : Nat → Bool
  openOk : Bool
  closeOk : Bool
  destroyOk : Bool
  formatErr : String
  openErr : String
  closeErr : String
  rng : Nat → Nat
  postContent : List Nat

/-- Mapper name: `format!("cryptowipe_{}", wipe_id.simple())`. -/
def mapperName (env : Env) : String := "cryptowipe_" ++ env.wipeIdSimple

/-- Overall progress fraction reported after a fill write with cumulative
count `c` on a device of `d` bytes: `0.25 + (c / d) * 0.50`. -/
def fillFrac (c d : Nat) : ℚ := 1/4 + ((c : ℚ) / (d : ℚ)) * (1/2)

/-- Overall progress fraction reported after a verification read with
cumulative count `c` on a device of `d` bytes: `0.90 + (c / d) * 0.10`. -/
def verifyFrac (c d : Nat) : ℚ := 9/10 + ((c : ℚ) / (d : ℚ)) * (1/10)

/-- Rendering of a fraction as a percentage with one decimal digit, as in
`format!("{:.1}%", p * 100.0)` (rounding to nearest). -/
def pctDisplay (q : ℚ) : String :=
  let n := (⌊q * 1000 + 1/2⌋).toNat
  toString (n / 10) ++ "." ++ toString (n % 10)

/-- Progress message of the overwrite stage. -/
def fillMsg (c d : Nat) : String :=
  "Overwriting with encrypted random data: " ++ pctDisplay ((c : ℚ) / (d : ℚ)) ++ "%"

/-- Progress message of the verification stage. -/
def verifyMsg (c d : Nat) : String :=
  "Verifying wipe: " ++ pctDisplay ((c : ℚ) / (d : ℚ)) ++ "%"

/-- The progress events `fill_with_random_data` emits (one after each
write, carrying `0.25 + fill_progress * 0.50`). -/
def fillProgressEvents (d : Nat) : List Event :=
  (fillCums d).map (fun c => .progress (fillFrac c d) (fillMsg c d))

/-- The progress events `verify_wipe` emits (one after each read, carrying
`0.90 + verify_progress * 0.10`). -/
def verifyProgressEvents (d : Nat) (content : List Nat) : List Event :=
  (verifyLoop d 0 d content).1.map (fun c => .progress (verifyFrac c d) (verifyMsg c d))

/-- `perform_luks_crypto_wipe(device, verify, progress_callback)`: the
event trace and the `io::Result<String>` (the rendered certificate on
success).  Each branch mirrors the `?`-propagation of the source: a failing
stage ends the session with that stage's error, after the events emitted so
far. -/
def perform_luks_crypto_wipe (env : Env) (device : String) (verify : Bool) :
    List Event × Except String String :=
  let p0 : List Event :=
    [ .progress 0 ("Starting LUKS crypto wipe for " ++ device)
    , .progress 0 "Preparing device..." ]
  if env.unmountOk then
    let p1 := p0 ++ [.unmount device]
      ++ (if env.removable then [Event.settle] else [])
      ++ [ .progress (1/20) "Device prepared"
         , .progress (1/20) "Generating cryptographic key..." ]
    let pass := generate_random_passphrase env.rng
    let p2 := p1 ++ [ .progress (1/10) "Cryptographic key generated"
                    , .progress (1/10) "Setting up LUKS encryption..."
                    , .luksFormat device pass ]
    if env.formatOk 0 then
      let m := mapperName env
      let p3 := p2 ++ [ .progress (1/5) "LUKS encryption setup complete"
                      , .progress (1/5) "Opening encrypted partition..."
                      , .luksOpen device m pass ]
      if env.openOk then
        let p4 := p3 ++ [ .progress (1/4) "Encrypted partition opened"
                        , .progress (1/4) "Starting secure data overwrite..." ]
          ++ fillProgressEvents env.deviceSize
          ++ [ .progress (3/4) "Data overwrite complete"
             , .progress (3/4) "Closing encrypted partition..."
             , .luksClose m ]
        if env.closeOk then
          let p5 := p4 ++ [ .progress (4/5) "Destroying encryption keys..."
                          , .destroyHeader device "/dev/urandom" (10 * 1024 * 1024) ]
          if env.destroyOk then
            let p6 := p5 ++ [.progress (9/10) "Keys and headers destroyed"]
            if verify then
              let p7 := p6 ++ [.progress (9/10) "Starting verification..."]
                ++ verifyProgressEvents env.deviceSize env.postContent
              if (verifyLoop env.deviceSize 0 env.deviceSize env.postContent).2 then
                (p7, .error "Verification failed: non-zero data found")
              else
                (p7 ++ [.progress 1 "Operation complete!"],
                 .ok (generate_completion_certificate device env.wipeId env.now))
            else
              (p6 ++ [.progress 1 "Operation complete!"],
               .ok (generate_completion_certificate device env.wipeId env.now))
          else (p5, .error "Failed to destroy LUKS header")
        else (p4, .error ("Failed to close LUKS partition: " ++ env.closeErr))
      else (p3, .error ("Failed to open LUKS partition: " ++ env.openErr))
    else (p2, .error ("Failed to create LUKS partition: " ++ env.formatErr))
  else (p0 ++ [.unmount device], .error ("Failed to unmount " ++ device))

/-- `true` exactly on `Ok` values: a session that completed successfully. -/
def exceptOk {ε α : Type} : Except ε α → Bool
  | .ok _ => true
  | .error _ => false

/-- The progress fractions of a trace, in emission order. -/
def progressFracs (trace : List Event) : List ℚ :=
  trace.filterMap (fun e => match e with | .progress q _ => some q | _ => none)

/-- `true` on `luksFormat` events. -/
def isFormatEvent : Event → Bool
  | .luksFormat _ _ => true
  | _ => false

/-- `true` on `luksOpen` events. -/
def isOpenEvent : Event → Bool
  | .luksOpen _ _ _ => true
  | _ => false

/-- `true` on `luksClose` events. -/
def isCloseEvent : Event → Bool
  | .luksClose _ => true
  | _ => false

/-- `true` on `progress` events. -/
def isProgressEvent : Event → Bool
  | .progress _ _ => true
  | _ => false

/-- Scan of a trace checking that every `destroyHeader` event is emitted
only once a `luksClose` event has already been emitted (`closed` is the
state: a close has been seen). -/
def destroyOnlyAfterClose : List Event → Bool → Bool
  | [], _ => true
  | .luksClose _ :: rest, _ => destroyOnlyAfterClose rest true
  | .destroyHeader _ _ _ :: rest, closed => closed && destroyOnlyAfterClose rest closed
  | _ :: rest, closed => destroyOnlyAfterClose rest closed

/-! ## auto_unmount_device (src/core.rs lines 100-140)

The guard spawns `findmnt`, `umount` and `lsblk` processes; each spawned
command is recorded as a `(program, args)` pair.  The mount table is the
state `String → Bool` (is this path mounted); a successful `umount`
clears the entry, a failed one leaves it.  `MountEnv` supplies the
outcome of each `umount`, the success of each `lsblk` and the lines it
prints.  `fuel` bounds the partition-recursion depth; the source recurses
only into names listed by `lsblk`, so any fuel at least the nesting depth
gives the source's behaviour. -/

/-- Static outcomes of the external commands the unmount guard runs. -/
structure MountEnv where
  umountOk : String → Bool
  lsblkOk : String → Bool
  lsblkLines : String → List String

/-- String prefix test (`str::starts_with` / `strip_prefix` matching). -/
def strPrefix (p s : String) : Bool := p.data.isPrefixOf s.data

/-- `str::trim`: leading and trailing whitespace removed. -/
def strTrim (s : String) : String :=
  String.mk (((s.data.dropWhile Char.isWhitespace).reverse.dropWhile Char.isWhitespace).reverse)

/-- `device_path.strip_prefix("/dev/").unwrap_or(device_path)`. -/
def stripDev (devicePath : String) : String :=
  if strPrefix "/dev/" devicePath then devicePath.drop 5 else devicePath

/-- The `findmnt -n -o TARGET <path>` invocation. -/
def findmntCmd (d : String) : String × List String := ("findmnt", ["-n", "-o", "TARGET", d])

/-- The `umount <path>` invocation (no force or lazy flag). -/
def umountCmd (d : String) : String × List String := ("umount", [d])

/-- The `lsblk -n -o NAME -l <path>` invocation. -/
def lsblkCmd (d : String) : String × List String := ("lsblk", ["-n", "-o", "NAME", "-l", d])

/-- `auto_unmount_device(device_path)`: returns the commands spawned, the
mount table after the call, and the `io::Result<()>`.  A mounted target
whose `umount` fails makes the call return the error at once; for a
whole-device name (no ASCII digit) the listed partitions are unmounted
recursively with their results discarded (`let _ = ...`). -/
def auto_unmount_device (env : MountEnv) :
    Nat → (String → Bool) → String →
    List (String × List String) × (String → Bool) × Except String Unit
  | 0, st, _ => ([], st, .ok ())
  | fuel+1, st, devicePath =>
    let deviceName := stripDev devicePath
    let mounted := st devicePath
    let t0 := [findmntCmd devicePath]
    if mounted && !(env.umountOk devicePath) then
      (t0 ++ [umountCmd devicePath], st, .error ("Failed to unmount " ++ devicePath))
    else
      let st1 := if mounted then fun d => if d = devicePath then false else st d else st
      let t1 := if mounted then t0 ++ [umountCmd devicePath] else t0
      if deviceName.data.any (·.isDigit) then (t1, st1, .ok ())
      else
        let t2 := t1 ++ [lsblkCmd devicePath]
        if env.lsblkOk devicePath then
          let r := ((env.lsblkLines devicePath).drop 1).foldl
            (fun acc p =>
              let r := auto_unmount_device env fuel acc.2 ("/dev/" ++ strTrim p)
              (acc.1 ++ r.1, r.2.1))
            (t2, st1)
          (r.1, r.2, .ok ())
        else (t2, st1, .ok ())

/-! ## list_block_devices (src/core.rs lines 55-98) and
is_removable_device (lines 37-53) -/

/-- The `DeviceInfo` struct (src/core.rs lines 21-30). -/
structure DeviceInfo where
  path : String
  size : String
  device_type : String
  mountpoint : String
  model : String
  is_partition : Bool
  is_removable : Bool
  deriving DecidableEq

/-- Environment of the enumeration: the outcome and output lines of
`lsblk -n -o NAME,SIZE,TYPE,MOUNTPOINT,MODEL --tree`, plus the readable
sysfs files (`is_removable_device` reads
`/sys/block/<base>/removable`). -/
structure LsblkEnv where
  success : Bool
  lines : List String
  sysfs : String → Option String

/-- `is_removable_device(device_name)`: trailing ASCII digits are stripped
when present, then `/sys/block/<base>/removable` is consulted; if
unreadable, the fallback pattern `base.starts_with("sd") &&
!base.starts_with("sda")` is used. -/
def is_removable_device (sysfs : String → Option String) (device_name : String) : Bool :=
  let base :=
    if device_name.data.any (·.isDigit) then
      String.mk (device_name.data.reverse.dropWhile (·.isDigit)).reverse
    else device_name
  match sysfs ("/sys/block/" ++ base ++ "/removable") with
  | some content => strTrim content == "1"
  | none => strPrefix "sd" base && !(strPrefix "sda" base)

/-- Splitting a character list at whitespace runs, dropping empty pieces
(`str::split_whitespace`); `acc` holds the reversed current word. -/
def wordsAux : List Char → List Char → List (List Char)
  | [], acc => if acc.isEmpty then [] else [acc.reverse]
  | c :: cs, acc =>
    if c.isWhitespace then
      if acc.isEmpty then wordsAux cs [] else acc.reverse :: wordsAux cs []
    else wordsAux cs (c :: acc)

/-- `line.split_whitespace()`. -/
def splitWhitespace (s : String) : List String :=
  (wordsAux s.data []).map String.mk

/-- `parts[0].trim_start_matches('├').trim_start_matches('└')
.trim_start_matches('│').trim()`. -/
def trimTreeChars (s : String) : String :=
  strTrim (String.mk (((s.data.dropWhile (· = '├')).dropWhile (· = '└')).dropWhile (· = '│')))

/-- Processing of one `lsblk` output line: lines with fewer than three
fields are skipped, names beginning with `loop`, `ram` or `sr` are skipped,
every other line yields a `DeviceInfo`. -/
def parseLine (sysfs : String → Option String) (line : String) : Option DeviceInfo :=
  let parts := splitWhitespace line
  if parts.length < 3 then none
  else
    let name := trimTreeChars (parts.getD 0 "")
    if strPrefix "loop" name || strPrefix "ram" name || strPrefix "sr" name then none
    else some
      { path := "/dev/" ++ name
        size := parts.getD 1 ""
        device_type := parts.getD 2 ""
        mountpoint := if parts.length > 3 then parts.getD 3 "" else ""
        model := if parts.length > 4 then " ".intercalate (parts.drop 4) else "Unknown"
        is_partition := parts.getD 2 "" == "part"
        is_removable := is_removable_device sysfs name }

/-- `list_block_devices()`: an `lsblk` failure is the enumeration error;
otherwise every line is parsed and the surviving devices are returned (an
empty list is an `Ok` value). -/
def list_block_devices (env : LsblkEnv) : Except String (List DeviceInfo) :=
  if env.success then .ok (env.lines.filterMap (parseLine env.sysfs))
  else .error "Failed to get device list"

/-! ## Lemmas about the overwrite loop -/

theorem blockSize_eq : blockSize = 1048576 := by norm_num [blockSize]

theorem fillSteps_nil (fuel w t : Nat) (h : ¬ w < t) : fillSteps fuel w t = [] := by
  cases fuel <;> simp [fillSteps, h]

theorem fillSteps_ne_nil (fuel w t : Nat) (hw : w < t) (hf : 1 ≤ fuel) :
    fillSteps fuel w t ≠ [] := by
  cases fuel with
  | zero => omega
  | succ f => simp [fillSteps, hw]

theorem fillSteps_fst_sum (fuel : Nat) : ∀ w t, t - w ≤ fuel →
    ((fillSteps fuel w t).map Prod.fst).sum = t - w := by
  induction fuel with
  | zero => intro w t h; simp [fillSteps]; omega
  | succ f ih =>
    intro w t h
    by_cases hw : w < t
    · simp only [fillSteps, if_pos hw]
      have hB := blockSize_eq
      by_cases hr : t - w < blockSize
      · rw [if_pos hr, List.map_cons, List.sum_cons,
          ih (w + (t - w)) t (by omega)]
        omega
      · rw [if_neg hr, List.map_cons, List.sum_cons,
          ih (w + blockSize) t (by omega)]
        omega
    · simp [fillSteps, hw]; omega

theorem fillSteps_length (fuel : Nat) : ∀ w t, t - w ≤ fuel →
    (fillSteps fuel w t).length = (t - w + blockSize - 1) / blockSize := by
  induction fuel with
  | zero =>
    intro w t h
    simp only [fillSteps, List.length_nil]
    rw [blockSize_eq]
    omega
  | succ f ih =>
    intro w t h
    have hB := blockSize_eq
    by_cases hw : w < t
    · simp only [fillSteps, if_pos hw]
      by_cases hr : t - w < blockSize
      · rw [if_pos hr, List.length_cons, ih (w + (t - w)) t (by omega)]
        rw [blockSize_eq]
        omega
      · rw [if_neg hr, List.length_cons, ih (w + blockSize) t (by omega)]
        rw [blockSize_eq]
        omega
    · simp only [fillSteps_nil _ _ _ hw, List.length_nil]
      rw [blockSize_eq]
      omega

theorem fillSteps_dropLast_fst (fuel : Nat) : ∀ w t,
    ∀ p ∈ (fillSteps fuel w t).dropLast, p.1 = blockSize := by
  induction fuel with
  | zero => intro w t; simp [fillSteps]
  | succ f ih =>
    intro w t p hp
    by_cases hw : w < t
    · simp only [fillSteps, if_pos hw] at hp
      by_cases hr : t - w < blockSize
      · rw [if_pos hr, fillSteps_nil f (w + (t - w)) t (by omega)] at hp
        simp at hp
      · rw [if_neg hr] at hp
        rcases hrest : fillSteps f (w + blockSize) t with _ | ⟨y, ys⟩
        · rw [hrest] at hp; simp at hp
        · rw [hrest, List.dropLast_cons₂] at hp
          rcases List.mem_cons.mp hp with hpe | hp'
          · rw [hpe]
          · exact ih (w + blockSize) t p (by rw [hrest]; exact hp')
    · rw [fillSteps_nil _ _ _ hw] at hp; simp at hp

theorem fillSteps_fst_getLast (fuel : Nat) : ∀ w t, t - w ≤ fuel → w < t →
    ((fillSteps fuel w t).map Prod.fst).getLast? =
      some ((t - w) - blockSize * ((fillSteps fuel w t).length - 1)) := by
  induction fuel with
  | zero => intro w t h hw; omega
  | succ f ih =>
    intro w t h hw
    have hB := blockSize_eq
    simp only [fillSteps, if_pos hw]
    by_cases hr : t - w < blockSize
    · rw [if_pos hr, fillSteps_nil f (w + (t - w)) t (by omega)]
      simp
    · rw [if_neg hr]
      by_cases hwb : w + blockSize < t
      · have hne := fillSteps_ne_nil f (w + blockSize) t hwb (by omega)
        rcases hrest : fillSteps f (w + blockSize) t with _ | ⟨y, ys⟩
        · exact absurd hrest hne
        · have hlast := ih (w + blockSize) t (by omega) hwb
          rw [hrest, List.map_cons] at hlast
          rw [List.map_cons, List.map_cons, List.getLast?_cons_cons, hlast]
          simp only [Option.some.injEq, List.length_cons]
          rw [blockSize_eq]
          omega
      · rw [fillSteps_nil f (w + blockSize) t hwb]
        simp only [List.map_cons, List.map_nil, List.getLast?_singleton,
          List.length_cons, List.length_nil, Option.some.injEq]
        rw [blockSize_eq] at hr hwb ⊢
        omega

/-- Claim C1: for every device size `D` and the fixed 1 MiB block size,
`fill_with_random_data` performs exactly `⌈D / blockSize⌉` writes, every
write except possibly the last is of exactly `blockSize` bytes, the final
write equals the remaining byte count `D - blockSize * (writes - 1)`, and
the cumulative bytes written equal exactly `D`. -/
theorem claim_C1_write_schedule (D : Nat) :
    (fill_with_random_data D).sum = D
    ∧ (fill_with_random_data D).length = (D + blockSize - 1) / blockSize
    ∧ (∀ w ∈ (fill_with_random_data D).dropLast, w = blockSize)
    ∧ (0 < D → (fill_with_random_data D).getLast? =
        some (D - blockSize * ((fill_with_random_data D).length - 1))) := by
  refine ⟨?_, ?_, ?_, ?_⟩
  · have := fillSteps_fst_sum D 0 D (by omega)
    simpa [fill_with_random_data] using this
  · have := fillSteps_length D 0 D (by omega)
    simpa [fill_with_random_data] using this
  · intro w hw
    rw [fill_with_random_data, ← List.map_dropLast] at hw
    rcases List.mem_map.mp hw with ⟨p, hp, rfl⟩
    exact fillSteps_dropLast_fst D 0 D p hp
  · intro hD
    have := fillSteps_fst_getLast D 0 D (by omega) hD
    simpa [fill_with_random_data] using this

/-- Witness for C1 at the spec's 3 GiB scenario: the device size is
positive and the theorem applies, and the write count is 3072. -/
theorem claim_C1_write_schedule_witness :
    0 < 3221225472
    ∧ (fill_with_random_data 3221225472).getLast? =
        some (3221225472 - blockSize * ((fill_with_random_data 3221225472).length - 1))
    ∧ (3221225472 + blockSize - 1) / blockSize = 3072 :=
  ⟨by decide, (claim_C1_write_schedule 3221225472).2.2.2 (by decide), by decide⟩

/-! ## Passphrase generation -/

/-- Claim C8: every call to `generate_random_passphrase` returns a string
of exactly 64 characters, each drawn from the fixed character set, whatever
the random source produces. -/
theorem claim_C8_passphrase (rng : Nat → Nat) :
    (generate_random_passphrase rng).length = 64
    ∧ ∀ c ∈ (generate_random_passphrase rng).data, c ∈ charset.data := by
  constructor
  · have hd : (generate_random_passphrase rng).length
        = ((List.range 64).map (fun i => charset.data.getD (rng i % charset.length) 'A')).length :=
      rfl
    rw [hd, List.length_map, List.length_range]
  · intro c hc
    have hc2 : c ∈ (List.range 64).map (fun i => charset.data.getD (rng i % charset.length) 'A') :=
      hc
    rcases List.mem_map.mp hc2 with ⟨i, _, rfl⟩
    have hlt : rng i % charset.length < charset.data.length := by
      have hpos : 0 < charset.data.length := by decide
      have hlen : charset.length = charset.data.length := rfl
      rw [hlen]
      exact Nat.mod_lt _ hpos
    rw [List.getD_eq_getElem _ _ hlt]
    exact List.getElem_mem hlt

/-- Witness for C8 at a concrete random source and character. -/
theorem claim_C8_passphrase_witness :
    (generate_random_passphrase (fun _ => 0)).length = 64 ∧ 'A' ∈ charset.data :=
  ⟨(claim_C8_passphrase (fun _ => 0)).1,
   (claim_C8_passphrase (fun _ => 0)).2 'A' (by decide)⟩

/-! ## Lemmas about the verification loop -/

theorem verifyLoop_snd (fuel : Nat) : ∀ br t content, t - br ≤ fuel →
    (verifyLoop fuel br t content).2 = (content.take (t - br)).any (· ≠ 0) := by
  induction fuel with
  | zero =>
    intro br t content h
    have : t - br = 0 := by omega
    simp [verifyLoop, this]
  | succ f ih =>
    intro br t content h
    by_cases hbr : br < t
    · simp only [verifyLoop, if_pos hbr]
      have hB : 0 < blockSize := by decide
      set rs := if t - br < blockSize then t - br else blockSize with hrs
      have hrs1 : 1 ≤ rs ∧ rs ≤ t - br := by
        rw [hrs]; split <;> omega
      by_cases hch : (content.take rs).length = 0
      · rw [if_pos hch]
        have hcon : content = [] := by
          rw [List.length_take] at hch
          exact List.eq_nil_of_length_eq_zero (by omega)
        simp [hcon]
      · rw [if_neg hch]
        by_cases hlen : content.length ≤ rs
        · have hcl : 0 < content.length := by
            rw [List.length_take] at hch
            omega
          have hchunk : content.take rs = content := List.take_of_length_le hlen
          have hdrop : content.drop rs = [] := List.drop_eq_nil_of_le hlen
          simp only [hdrop, hchunk]
          have hIH := ih (br + content.length) t [] (by omega)
          simp only [List.take_nil, List.any_nil] at hIH
          simp only [hIH]
          rw [List.take_of_length_le (le_trans hlen (by omega))]
          simp
        · push_neg at hlen
          have hmin : (content.take rs).length = rs := by
            rw [List.length_take]; omega
          simp only [hmin]
          have hIH := ih (br + rs) t (content.drop rs) (by omega)
          simp only [hIH]
          have h1 : t - (br + rs) = t - br - rs := by omega
          rw [h1]
          have htk : List.take (t - br) content
              = List.take rs content ++ List.take (t - br - rs) (List.drop rs content) := by
            rw [← List.take_add]
            congr 1
            omega
          rw [htk, List.any_append]
    · have : t - br = 0 := by omega
      simp [verifyLoop, hbr, this]

/-- Claim C10: `verify_wipe` returns the error
"Verification failed: non-zero data found" exactly when at least one byte
of the device is non-zero; the non-zero flag accumulates over all blocks
and is never reset, so verification succeeds exactly when every byte read
is zero. -/
theorem claim_C10_verify_iff (content : List Nat) :
    (verify_wipe content).2 = .error "Verification failed: non-zero data found"
      ↔ ∃ b ∈ content, b ≠ 0 := by
  have h := verifyLoop_snd content.length 0 content.length content (by omega)
  simp only [Nat.sub_zero, List.take_length] at h
  have hshape : (verify_wipe content).2
      = if content.any (· ≠ 0) then
          .error "Verification failed: non-zero data found" else .ok () := by
    show (if (verifyLoop content.length 0 content.length content).2 then
        (Except.error "Verification failed: non-zero data found" : Except String Unit)
      else .ok ()) = _
    rw [h]
  rw [hshape]
  constructor
  · intro he
    by_cases ha : content.any (· ≠ 0) = true
    · rcases List.any_eq_true.mp ha with ⟨b, hb, hbp⟩
      exact ⟨b, hb, by simpa using hbp⟩
    · rw [Bool.not_eq_true] at ha
      rw [ha] at he
      simp at he
  · intro hex
    rcases hex with ⟨b, hb, hne⟩
    have ha : content.any (· ≠ 0) = true := List.any_eq_true.mpr ⟨b, hb, by simpa using hne⟩
    rw [ha]
    simp

/-- Witness for C10 at a concrete device image with one non-zero byte. -/
theorem claim_C10_verify_iff_witness :
    (verify_wipe [0, 5, 0]).2 = .error "Verification failed: non-zero data found" :=
  (claim_C10_verify_iff [0, 5, 0]).mpr ⟨5, by decide, by decide⟩

/-! ## Device enumeration -/

/-- Claim C9: on a successful enumeration, every returned device has a
name (the part of its path after `/dev/`) that does not start with `loop`,
`ram` or `sr`, and an enumeration in which every line is filtered out
returns `Ok` with the empty list rather than an error. -/
theorem claim_C9_device_filter (env : LsblkEnv) (h : env.success = true) :
    ∃ devs, list_block_devices env = .ok devs
      ∧ (∀ d ∈ devs, ∃ name, d.path = "/dev/" ++ name
          ∧ strPrefix "loop" name = false
          ∧ strPrefix "ram" name = false
          ∧ strPrefix "sr" name = false)
      ∧ ((∀ l ∈ env.lines, parseLine env.sysfs l = none) → devs = []) := by
  refine ⟨env.lines.filterMap (parseLine env.sysfs), by simp [list_block_devices, h], ?_, ?_⟩
  · intro d hd
    rcases List.mem_filterMap.mp hd with ⟨l, _, hparse⟩
    unfold parseLine at hparse
    by_cases h3 : (splitWhitespace l).length < 3
    · rw [if_pos h3] at hparse
      exact absurd hparse (by simp)
    · rw [if_neg h3] at hparse
      by_cases hf : (strPrefix "loop" (trimTreeChars ((splitWhitespace l).getD 0 ""))
          || strPrefix "ram" (trimTreeChars ((splitWhitespace l).getD 0 ""))
          || strPrefix "sr" (trimTreeChars ((splitWhitespace l).getD 0 ""))) = true
      · rw [if_pos hf] at hparse
        exact absurd hparse (by simp)
      · rw [if_neg hf] at hparse
        simp only [Option.some.injEq] at hparse
        simp only [Bool.or_eq_true, not_or, Bool.not_eq_true] at hf
        refine ⟨trimTreeChars ((splitWhitespace l).getD 0 ""), ?_, hf.1.1, hf.1.2, hf.2⟩
        rw [← hparse]
  · intro hall
    exact List.filterMap_eq_nil_iff.mpr hall

/-- Witness environment for C9: an `lsblk` run listing only virtual
devices plus a malformed line. -/
def lsblkEnvW : LsblkEnv where
  success := true
  lines := ["loop0 4K loop /snap/x", "ram0 1M disk", "sr0 1024M rom", "x y"]
  sysfs := fun _ => none

/-- Witness for C9: the filter applies to a concrete enumeration, and that
enumeration (only virtual devices and a malformed line) yields `Ok []`. -/
theorem claim_C9_device_filter_witness :
    list_block_devices lsblkEnvW = .ok []
    ∧ ∃ devs, list_block_devices lsblkEnvW = .ok devs
        ∧ (∀ d ∈ devs, ∃ name, d.path = "/dev/" ++ name
            ∧ strPrefix "loop" name = false
            ∧ strPrefix "ram" name = false
            ∧ strPrefix "sr" name = false)
        ∧ ((∀ l ∈ lsblkEnvW.lines, parseLine lsblkEnvW.sysfs l = none) → devs = []) :=
  ⟨rfl, claim_C9_device_filter lsblkEnvW rfl⟩

/-! ## Unmount guard -/

/-- Environment for the C3 counterexample: every `umount` fails, `lsblk`
succeeds and lists `sdb` with partition `sdb1`. -/
def unmountEnvC : MountEnv where
  umountOk := fun _ => false
  lsblkOk := fun _ => true
  lsblkLines := fun d => if d = "/dev/sdb" then ["sdb", "sdb1"] else []

/-- Mount table for the C3 counterexample: only `/dev/sdb1` is mounted. -/
def mountStateC : String → Bool := fun d => d == "/dev/sdb1"

/-- Counterexample to claim C3: on `/dev/sdb` whose partition `/dev/sdb1`
is mounted and whose `umount` fails, the guard returns success even though
`/dev/sdb1` is still mounted afterwards; the command trace is exactly
`findmnt sdb`, `lsblk sdb`, `findmnt sdb1`, `umount sdb1` — the failed
normal unmount is followed by no forced unmount and no further mount-point
query. -/
theorem claim_C3_counterexample :
    (auto_unmount_device unmountEnvC 2 mountStateC "/dev/sdb").2.2 = .ok ()
    ∧ (auto_unmount_device unmountEnvC 2 mountStateC "/dev/sdb").2.1 "/dev/sdb1" = true
    ∧ (auto_unmount_device unmountEnvC 2 mountStateC "/dev/sdb").1
        = [findmntCmd "/dev/sdb", lsblkCmd "/dev/sdb",
           findmntCmd "/dev/sdb1", umountCmd "/dev/sdb1"] :=
  ⟨rfl, rfl, rfl⟩

/-- Amended claim C3: when the normal unmount of a mounted target fails,
`auto_unmount_device` gives up immediately with the unmount error: the
command trace of the call is exactly the mount query followed by the one
normal `umount` invocation — no forced unmount is attempted and no
subsequent mount-point query is made — and the mount table is left
unchanged. -/
theorem claim_C3_amended_unmount (env : MountEnv) (st : String → Bool) (fuel : Nat)
    (dev : String) (hm : st dev = true) (hu : env.umountOk dev = false) :
    auto_unmount_device env (fuel+1) st dev
      = ([findmntCmd dev, umountCmd dev], st, .error ("Failed to unmount " ++ dev)) := by
  simp [auto_unmount_device, hm, hu]

/-- Witness for the amended C3 at a concrete mounted partition whose
unmount fails. -/
theorem claim_C3_amended_unmount_witness :
    mountStateC "/dev/sdb1" = true
    ∧ unmountEnvC.umountOk "/dev/sdb1" = false
    ∧ auto_unmount_device unmountEnvC 1 mountStateC "/dev/sdb1"
        = ([findmntCmd "/dev/sdb1", umountCmd "/dev/sdb1"], mountStateC,
           .error ("Failed to unmount " ++ "/dev/sdb1")) :=
  ⟨rfl, rfl, claim_C3_amended_unmount unmountEnvC mountStateC 0 "/dev/sdb1" rfl rfl⟩

/-! ## Pipeline helper lemmas -/

theorem progressFracs_nil : progressFracs [] = [] := rfl

theorem progressFracs_cons_progress (q : ℚ) (m : String) (rest : List Event) :
    progressFracs (.progress q m :: rest) = q :: progressFracs rest := rfl

theorem progressFracs_cons_unmount (d : String) (rest : List Event) :
    progressFracs (.unmount d :: rest) = progressFracs rest := rfl

theorem progressFracs_cons_settle (rest : List Event) :
    progressFracs (.settle :: rest) = progressFracs rest := rfl

theorem progressFracs_cons_format (d p : String) (rest : List Event) :
    progressFracs (.luksFormat d p :: rest) = progressFracs rest := rfl

theorem progressFracs_cons_open (d m p : String) (rest : List Event) :
    progressFracs (.luksOpen d m p :: rest) = progressFracs rest := rfl

theorem progressFracs_cons_close (m : String) (rest : List Event) :
    progressFracs (.luksClose m :: rest) = progressFracs rest := rfl

theorem progressFracs_cons_destroy (d s : String) (n : Nat) (rest : List Event) :
    progressFracs (.destroyHeader d s n :: rest) = progressFracs rest := rfl

theorem progressFracs_append (l₁ l₂ : List Event) :
    progressFracs (l₁ ++ l₂) = progressFracs l₁ ++ progressFracs l₂ :=
  List.filterMap_append l₁ l₂ _

theorem progressFracs_map (f : Nat → ℚ) (m : Nat → String) (l : List Nat) :
    progressFracs (l.map (fun c => Event.progress (f c) (m c))) = l.map f := by
  induction l with
  | nil => rfl
  | cons a t ih =>
    rw [List.map_cons, progressFracs_cons_progress, ih, List.map_cons]

theorem filter_progress_map (p : Event → Bool) (hp : ∀ q s, p (.progress q s) = false)
    (f : Nat → ℚ) (m : Nat → String) (l : List Nat) :
    (l.map (fun c => Event.progress (f c) (m c))).filter p = [] := by
  induction l with
  | nil => rfl
  | cons a t ih => simp [List.filter_cons, hp, ih]

theorem filter_format_progress_map (f : Nat → ℚ) (m : Nat → String) (l : List Nat) :
    (l.map (fun c => Event.progress (f c) (m c))).filter isFormatEvent = [] :=
  filter_progress_map _ (fun _ _ => rfl) f m l

theorem filter_open_progress_map (f : Nat → ℚ) (m : Nat → String) (l : List Nat) :
    (l.map (fun c => Event.progress (f c) (m c))).filter isOpenEvent = [] :=
  filter_progress_map _ (fun _ _ => rfl) f m l

theorem scan_progress_map (f : Nat → ℚ) (m : Nat → String) (l : List Nat)
    (rest : List Event) (c : Bool) :
    destroyOnlyAfterClose ((l.map (fun k => Event.progress (f k) (m k))) ++ rest) c
      = destroyOnlyAfterClose rest c := by
  induction l with
  | nil => rfl
  | cons a t ih => simpa [destroyOnlyAfterClose] using ih

theorem destroy_not_mem_progress_map (d s : String) (n : Nat) (f : Nat → ℚ)
    (m : Nat → String) (l : List Nat) :
    Event.destroyHeader d s n ∉ l.map (fun c => Event.progress (f c) (m c)) := by
  simp

theorem scan_progress_map_end (f : Nat → ℚ) (m : Nat → String) (l : List Nat) (c : Bool) :
    destroyOnlyAfterClose (l.map (fun k => Event.progress (f k) (m k))) c = true := by
  induction l with
  | nil => rfl
  | cons a t ih => simpa [destroyOnlyAfterClose] using ih

/-- The `io::Result` of `perform_luks_crypto_wipe`, written as the nested
conditionals on the primitive outcomes alone (proved equal to the model's
result below): the first failing stage determines the error, and a fully
successful session returns the rendered certificate. -/
def performResult (env : Env) (device : String) (verify : Bool) : Except String String :=
  if env.unmountOk then
    if env.formatOk 0 then
      if env.openOk then
        if env.closeOk then
          if env.destroyOk then
            if verify then
              if (verifyLoop env.deviceSize 0 env.deviceSize env.postContent).2 then
                .error "Verification failed: non-zero data found"
              else .ok (generate_completion_certificate device env.wipeId env.now)
            else .ok (generate_completion_certificate device env.wipeId env.now)
          else .error "Failed to destroy LUKS header"
        else .error ("Failed to close LUKS partition: " ++ env.closeErr)
      else .error ("Failed to open LUKS partition: " ++ env.openErr)
    else .error ("Failed to create LUKS partition: " ++ env.formatErr)
  else .error ("Failed to unmount " ++ device)

set_option maxHeartbeats 1000000 in
theorem perform_snd (env : Env) (device : String) (verify : Bool) :
    (perform_luks_crypto_wipe env device verify).2 = performResult env device verify := by
  unfold perform_luks_crypto_wipe performResult
  split_ifs <;> rfl

/-- A successful session's result is the rendered certificate of the
device, the operation id and the completion time (and of nothing else). -/
theorem perform_ok_cert (env : Env) (device : String) (verify : Bool) (c : String)
    (h : (perform_luks_crypto_wipe env device verify).2 = .ok c) :
    c = generate_completion_certificate device env.wipeId env.now := by
  rw [perform_snd] at h
  unfold performResult at h
  split_ifs at h <;> simp_all

/-- The session result does not depend on the random source: the
passphrase and the overwrite content influence the trace only. -/
theorem perform_result_rng (env : Env) (device : String) (verify : Bool) (g : Nat → Nat) :
    (perform_luks_crypto_wipe env device verify).2
      = (perform_luks_crypto_wipe { env with rng := g } device verify).2 := by
  rw [perform_snd, perform_snd]
  simp [performResult]

/-- The event trace of `perform_luks_crypto_wipe`, written as nested
conditionals (proved equal to the model's trace below). -/
def performTrace (env : Env) (device : String) (verify : Bool) : List Event :=
  let pass := generate_random_passphrase env.rng
  let m := mapperName env
  let p0 : List Event :=
    [ .progress 0 ("Starting LUKS crypto wipe for " ++ device)
    , .progress 0 "Preparing device..." ]
  if env.unmountOk then
    let p1 := p0 ++ [.unmount device]
      ++ (if env.removable then [Event.settle] else [])
      ++ [ .progress (1/20) "Device prepared"
         , .progress (1/20) "Generating cryptographic key..." ]
    let p2 := p1 ++ [ .progress (1/10) "Cryptographic key generated"
                    , .progress (1/10) "Setting up LUKS encryption..."
                    , .luksFormat device pass ]
    if env.formatOk 0 then
      let p3 := p2 ++ [ .progress (1/5) "LUKS encryption setup complete"
                      , .progress (1/5) "Opening encrypted partition..."
                      , .luksOpen device m pass ]
      if env.openOk then
        let p4 := p3 ++ [ .progress (1/4) "Encrypted partition opened"
                        , .progress (1/4) "Starting secure data overwrite..." ]
          ++ fillProgressEvents env.deviceSize
          ++ [ .progress (3/4) "Data overwrite complete"
             , .progress (3/4) "Closing encrypted partition..."
             , .luksClose m ]
        if env.closeOk then
          let p5 := p4 ++ [ .progress (4/5) "Destroying encryption keys..."
                          , .destroyHeader device "/dev/urandom" (10 * 1024 * 1024) ]
          if env.destroyOk then
            let p6 := p5 ++ [.progress (9/10) "Keys and headers destroyed"]
            if verify then
              let p7 := p6 ++ [.progress (9/10) "Starting verification..."]
                ++ verifyProgressEvents env.deviceSize env.postContent
              if (verifyLoop env.deviceSize 0 env.deviceSize env.postContent).2 then p7
              else p7 ++ [.progress 1 "Operation complete!"]
            else p6 ++ [.progress 1 "Operation complete!"]
          else p5
        else p4
      else p3
    else p2
  else p0 ++ [.unmount device]

set_option maxHeartbeats 1000000 in
theorem perform_fst (env : Env) (device : String) (verify : Bool) :
    (perform_luks_crypto_wipe env device verify).1 = performTrace env device verify := by
  unfold perform_luks_crypto_wipe performTrace
  split_ifs <;> rfl

/-! ## C7: close before header destruction -/

set_option maxHeartbeats 1000000 in
theorem performTrace_destroy_after_close (env : Env) (device : String) (verify : Bool) :
    destroyOnlyAfterClose (performTrace env device verify) false = true := by
  unfold performTrace
  split_ifs <;>
    simp [destroyOnlyAfterClose, fillProgressEvents, verifyProgressEvents,
      scan_progress_map, scan_progress_map_end]

set_option maxHeartbeats 1000000 in
theorem performTrace_destroy_args (env : Env) (device : String) (verify : Bool) :
    ∀ d s n, Event.destroyHeader d s n ∈ performTrace env device verify →
        d = device ∧ s = "/dev/urandom" ∧ n = 10 * 1024 * 1024 := by
  unfold performTrace
  split_ifs <;>
    (intro d s n h
     simp only [List.mem_append, List.mem_cons, List.mem_singleton,
       fillProgressEvents, verifyProgressEvents, destroy_not_mem_progress_map,
       List.not_mem_nil, or_false, false_or, reduceCtorEq,
       Event.destroyHeader.injEq] at h
     try exact ⟨h.1, h.2.1, h.2.2⟩)

/-- Claim C7: in every session the `luksClose` invocation precedes the
header-destruction write (the trace never contains a `destroyHeader` event
before a `luksClose` event), and every header-destruction event writes
`10 * 1024 * 1024` fresh bytes from `/dev/urandom` over the leading region
of the raw device (`dd if=/dev/urandom of=<device> bs=1M count=10
conv=notrunc`). -/
theorem claim_C7_close_before_destroy (env : Env) (device : String) (verify : Bool) :
    destroyOnlyAfterClose (perform_luks_crypto_wipe env device verify).1 false = true
    ∧ ∀ d s n, Event.destroyHeader d s n ∈ (perform_luks_crypto_wipe env device verify).1 →
        d = device ∧ s = "/dev/urandom" ∧ n = 10 * 1024 * 1024 := by
  rw [perform_fst]
  exact ⟨performTrace_destroy_after_close env device verify,
    performTrace_destroy_args env device verify⟩

/-- A fully successful session environment, used by concrete witnesses:
every primitive succeeds, the device holds 3 bytes, all read back as
zero. -/
def performEnvW : Env where
  wipeId := "wid-1111"
  wipeIdSimple := "wid1111"
  now := "2026-01-01 00:00:00 UTC"
  deviceSize := 3
  removable := false
  unmountOk := true
  formatOk := fun _ => true
  openOk := true
  closeOk := true
  destroyOk := true
  formatErr := "boom"
  openErr := "oerr"
  closeErr := "cerr"
  rng := fun _ => 0
  postContent := [0, 0, 0]

/-- Witness for C7 at a concrete successful verified session: the trace
contains the header-destruction event and the theorem applies to it. -/
theorem claim_C7_close_before_destroy_witness :
    Event.destroyHeader "/dev/sdb" "/dev/urandom" (10 * 1024 * 1024)
        ∈ (perform_luks_crypto_wipe performEnvW "/dev/sdb" true).1
    ∧ ("/dev/sdb" = "/dev/sdb" ∧ "/dev/urandom" = "/dev/urandom"
        ∧ 10 * 1024 * 1024 = 10 * 1024 * 1024)
    ∧ destroyOnlyAfterClose (perform_luks_crypto_wipe performEnvW "/dev/sdb" true).1 false
        = true :=
  ⟨by decide,
   (claim_C7_close_before_destroy performEnvW "/dev/sdb" true).2
     "/dev/sdb" "/dev/urandom" (10 * 1024 * 1024) (by decide),
   (claim_C7_close_before_destroy performEnvW "/dev/sdb" true).1⟩

/-! ## C4: no retry at the format stage -/

/-- Environment for the C4 counterexample: a removable device whose format
primitive fails on its first two attempts and would succeed on the
third. -/
def performEnvRetry : Env :=
  { performEnvW with removable := true, formatOk := fun n => decide (2 ≤ n) }

/-- Counterexample to claim C4: on a removable device whose format
primitive fails twice and then would succeed on the third attempt, the
session does not proceed to opening the container; it aborts at the first
format failure with the container-format error, after exactly one format
invocation and no open invocation. -/
theorem claim_C4_counterexample :
    performEnvRetry.removable = true
    ∧ performEnvRetry.formatOk 0 = false
    ∧ performEnvRetry.formatOk 1 = false
    ∧ performEnvRetry.formatOk 2 = true
    ∧ (perform_luks_crypto_wipe performEnvRetry "/dev/sdb" false).2
        = .error ("Failed to create LUKS partition: " ++ performEnvRetry.formatErr)
    ∧ ((perform_luks_crypto_wipe performEnvRetry "/dev/sdb" false).1.filter
        isFormatEvent).length = 1
    ∧ (perform_luks_crypto_wipe performEnvRetry "/dev/sdb" false).1.filter isOpenEvent
        = [] :=
  ⟨rfl, rfl, rfl, rfl, rfl, rfl, rfl⟩

set_option maxHeartbeats 1000000 in
theorem performTrace_format_once (env : Env) (device : String) (verify : Bool) :
    ((performTrace env device verify).filter isFormatEvent).length ≤ 1 := by
  unfold performTrace
  split_ifs <;>
    simp [List.filter_append, List.filter_cons, isFormatEvent,
      fillProgressEvents, verifyProgressEvents, filter_format_progress_map]

/-- Amended claim C4: no stage of the session permits automatic retry.
The format primitive is invoked at most once per session, on removable and
non-removable devices alike, and when that single invocation fails (with
the device prepared) the session aborts immediately with the
container-format error, never reaching the open stage. -/
theorem claim_C4_no_retry (env : Env) (device : String) (verify : Bool) :
    ((perform_luks_crypto_wipe env device verify).1.filter isFormatEvent).length ≤ 1
    ∧ (env.unmountOk = true → env.formatOk 0 = false →
        (perform_luks_crypto_wipe env device verify).2
          = .error ("Failed to create LUKS partition: " ++ env.formatErr)
        ∧ (perform_luks_crypto_wipe env device verify).1.filter isOpenEvent = []) := by
  constructor
  · rw [perform_fst]
    exact performTrace_format_once env device verify
  · intro hu hf
    constructor
    · rw [perform_snd]
      simp [performResult, hu, hf]
    · rw [perform_fst]
      unfold performTrace
      cases hr : env.removable <;>
        simp [hu, hf, hr, isOpenEvent, List.filter_append, List.filter_cons]

/-- Witness for the amended C4 at the concrete retry environment. -/
theorem claim_C4_no_retry_witness :
    performEnvRetry.unmountOk = true
    ∧ performEnvRetry.formatOk 0 = false
    ∧ ((perform_luks_crypto_wipe performEnvRetry "/dev/sdb" false).1.filter
        isFormatEvent).length ≤ 1
    ∧ (perform_luks_crypto_wipe performEnvRetry "/dev/sdb" false).2
        = .error ("Failed to create LUKS partition: " ++ performEnvRetry.formatErr)
    ∧ (perform_luks_crypto_wipe performEnvRetry "/dev/sdb" false).1.filter isOpenEvent
        = [] :=
  ⟨rfl, rfl, (claim_C4_no_retry performEnvRetry "/dev/sdb" false).1,
   ((claim_C4_no_retry performEnvRetry "/dev/sdb" false).2 rfl rfl).1,
   ((claim_C4_no_retry performEnvRetry "/dev/sdb" false).2 rfl rfl).2⟩

/-! ## C5: certificate verification status -/

/-- Counterexample to claim C5: a concrete session that skips verification
still completes with a certificate whose verification status field is the
constant "VERIFIED SECURE" — not "skipped" — and the certificate is
identical to the one a verified session produces. -/
theorem claim_C5_counterexample :
    (perform_luks_crypto_wipe performEnvW "/dev/sdb" false).2
      = .ok (generate_completion_certificate "/dev/sdb" "wid-1111"
          "2026-01-01 00:00:00 UTC")
    ∧ (generate_completion_certificate_struct "/dev/sdb" "wid-1111"
        "2026-01-01 00:00:00 UTC").verification_status = "VERIFIED SECURE"
    ∧ (perform_luks_crypto_wipe performEnvW "/dev/sdb" false).2
      = (perform_luks_crypto_wipe performEnvW "/dev/sdb" true).2
    ∧ "VERIFIED SECURE" ≠ "performed"
    ∧ "VERIFIED SECURE" ≠ "skipped"
    ∧ "VERIFIED SECURE" ≠ "failed" :=
  ⟨rfl, rfl, rfl, by decide, by decide, by decide⟩

/-- Amended claim C5: the certificate's verification status is the
hard-coded constant "VERIFIED SECURE", independent of whether verification
was requested or what it returned: two successful sessions of the same
environment differing only in the verify flag produce identical
certificates. -/
theorem claim_C5_constant_verification_status (env : Env) (device : String)
    (v₁ v₂ : Bool) (c₁ c₂ : String)
    (h₁ : (perform_luks_crypto_wipe env device v₁).2 = .ok c₁)
    (h₂ : (perform_luks_crypto_wipe env device v₂).2 = .ok c₂) :
    c₁ = c₂
    ∧ ∀ d i n, (generate_completion_certificate_struct d i n).verification_status
        = "VERIFIED SECURE" := by
  constructor
  · rw [perform_ok_cert env device v₁ c₁ h₁, perform_ok_cert env device v₂ c₂ h₂]
  · intro d i n
    rfl

/-- Witness for the amended C5: a session without verification and one
with verification, both successful, yield the same certificate. -/
theorem claim_C5_constant_verification_status_witness :
    generate_completion_certificate "/dev/sdb" "wid-1111" "2026-01-01 00:00:00 UTC"
      = generate_completion_certificate "/dev/sdb" "wid-1111" "2026-01-01 00:00:00 UTC"
    ∧ ∀ d i n, (generate_completion_certificate_struct d i n).verification_status
        = "VERIFIED SECURE" :=
  claim_C5_constant_verification_status performEnvW "/dev/sdb" false true _ _ rfl rfl

/-! ## C6: certificate contents -/

/-- A character `serde_json` emits unchanged inside a string literal. -/
def noEscapeChar (c : Char) : Prop := c ≠ '"' ∧ c ≠ '\\' ∧ 32 ≤ c.toNat

instance (c : Char) : Decidable (noEscapeChar c) := by
  unfold noEscapeChar
  infer_instance

theorem escapeChar_eq (c : Char) (h : noEscapeChar c) : escapeChar c = [c] := by
  obtain ⟨h1, h2, h3⟩ := h
  have e8 : ¬ c.toNat = 8 := by omega
  have e9 : ¬ c.toNat = 9 := by omega
  have e10 : ¬ c.toNat = 10 := by omega
  have e12 : ¬ c.toNat = 12 := by omega
  have e13 : ¬ c.toNat = 13 := by omega
  have e32 : ¬ c.toNat < 32 := by omega
  simp only [escapeChar, if_neg h1, if_neg h2, if_neg e8, if_neg e9, if_neg e10,
    if_neg e12, if_neg e13, if_neg e32]

theorem jsonEscape_eq (s : String) (h : ∀ c ∈ s.data, noEscapeChar c) :
    jsonEscape s = s := by
  unfold jsonEscape
  have hflat : ∀ l : List Char, (∀ c ∈ l, noEscapeChar c) → l.flatMap escapeChar = l := by
    intro l
    induction l with
    | nil => intro _; rfl
    | cons a t ih =>
      intro hl
      rw [List.flatMap_cons, escapeChar_eq a (hl a (by simp)),
        ih (fun c hc => hl c (by simp [hc]))]
      try rfl
  rw [hflat s.data h]

theorem infix_extend_left {α : Type} (l : List α) {X R : List α} (h : X <:+: R) :
    X <:+: l ++ R := by
  rcases h with ⟨s, t, rfl⟩
  exact ⟨l ++ s, t, by simp [List.append_assoc]⟩

set_option maxRecDepth 100000 in
set_option maxHeartbeats 2000000 in
/-- Counterexample to claim C6: for a device path containing a character
that JSON escaping rewrites (here a double quote), the rendered certificate
does not contain the path verbatim. -/
theorem claim_C6_counterexample :
    ¬ (("/dev/\"x" : String).data <:+:
        (generate_completion_certificate "/dev/\"x"
          "11111111-2222-3333-4444-555555555555" "2026-01-01 00:00:00 UTC").data) := by
  decide

/-- Amended claim C6: for every device path and operation id made of
characters that JSON escaping leaves unchanged (which covers every real
device path and every rendered UUID), the certificate text contains both
verbatim; for every environment the session result — in particular the
certificate — is independent of the random source that produces the
passphrase, and a successful session's certificate is a function of the
device path, the operation id and the completion time only. -/
theorem claim_C6_certificate_contents (device opid now : String)
    (hdev : ∀ c ∈ device.data, noEscapeChar c)
    (hop : ∀ c ∈ opid.data, noEscapeChar c) :
    opid.data <:+: (generate_completion_certificate device opid now).data
    ∧ device.data <:+: (generate_completion_certificate device opid now).data
    ∧ (∀ (env : Env) (dev : String) (verify : Bool) (g : Nat → Nat),
        (perform_luks_crypto_wipe env dev verify).2
          = (perform_luks_crypto_wipe { env with rng := g } dev verify).2)
    ∧ (∀ (env : Env) (dev : String) (verify : Bool) (c : String),
        (perform_luks_crypto_wipe env dev verify).2 = .ok c →
          c = generate_completion_certificate dev env.wipeId env.now) := by
  refine ⟨?_, ?_, fun env dev verify g => perform_result_rng env dev verify g,
    fun env dev verify c h => perform_ok_cert env dev verify c h⟩
  · simp only [generate_completion_certificate, renderStruct,
      generate_completion_certificate_struct, jsonEscape_eq opid hop,
      String.data_append, List.append_assoc]
    exact infix_extend_left _ ((List.prefix_append _ _).isInfix)
  · simp only [generate_completion_certificate, renderStruct,
      generate_completion_certificate_struct, jsonEscape_eq device hdev,
      jsonEscape_eq opid hop, String.data_append, List.append_assoc]
    exact infix_extend_left _ (infix_extend_left _ (infix_extend_left _
      ((List.prefix_append _ _).isInfix)))

/-- Witness for the amended C6 at a concrete device path and operation
id. -/
theorem claim_C6_certificate_contents_witness :
    ("wid-1111" : String).data <:+:
      (generate_completion_certificate "/dev/sdb" "wid-1111"
        "2026-01-01 00:00:00 UTC").data
    ∧ ("/dev/sdb" : String).data <:+:
      (generate_completion_certificate "/dev/sdb" "wid-1111"
        "2026-01-01 00:00:00 UTC").data :=
  ⟨(claim_C6_certificate_contents "/dev/sdb" "wid-1111" "2026-01-01 00:00:00 UTC"
      (by decide) (by decide)).1,
   (claim_C6_certificate_contents "/dev/sdb" "wid-1111" "2026-01-01 00:00:00 UTC"
      (by decide) (by decide)).2.1⟩

/-! ## C2: progress monotonicity -/

theorem fillSteps_snd_le (fuel : Nat) : ∀ w t, ∀ c ∈ (fillSteps fuel w t).map Prod.snd, c ≤ t := by
  induction fuel with
  | zero => intro w t c hc; simp [fillSteps] at hc
  | succ f ih =>
    intro w t c hc
    by_cases hw : w < t
    · simp only [fillSteps, if_pos hw, List.map_cons, List.mem_cons] at hc
      rcases hc with rfl | hc
      · split <;> omega
      · exact ih _ _ c hc
    · rw [fillSteps_nil _ _ _ hw] at hc; simp at hc

theorem fillSteps_snd_lower (fuel : Nat) : ∀ w t, ∀ c ∈ (fillSteps fuel w t).map Prod.snd, w ≤ c := by
  induction fuel with
  | zero => intro w t c hc; simp [fillSteps] at hc
  | succ f ih =>
    intro w t c hc
    by_cases hw : w < t
    · simp only [fillSteps, if_pos hw, List.map_cons, List.mem_cons] at hc
      rcases hc with rfl | hc
      · omega
      · have := ih _ _ c hc
        omega
    · rw [fillSteps_nil _ _ _ hw] at hc; simp at hc

theorem fillSteps_snd_chain (fuel : Nat) : ∀ w t,
    List.Chain' (· ≤ ·) ((fillSteps fuel w t).map Prod.snd) := by
  induction fuel with
  | zero => intro w t; simp [fillSteps]
  | succ f ih =>
    intro w t
    by_cases hw : w < t
    · simp only [fillSteps, if_pos hw, List.map_cons]
      refine List.chain'_cons'.mpr ⟨?_, ih _ _⟩
      intro y hy
      exact fillSteps_snd_lower f _ t y (List.mem_of_mem_head? hy)
    · rw [fillSteps_nil _ _ _ hw]; simp

theorem verifyLoop_fst_le (fuel : Nat) : ∀ br t content, br ≤ t →
    ∀ c ∈ (verifyLoop fuel br t content).1, c ≤ t := by
  induction fuel with
  | zero => intro br t content _ c hc; simp [verifyLoop] at hc
  | succ f ih =>
    intro br t content hbrt c hc
    by_cases hbr : br < t
    · simp only [verifyLoop, if_pos hbr] at hc
      by_cases hch : (content.take (if t - br < blockSize then t - br else blockSize)).length = 0
      · rw [if_pos hch] at hc; simp at hc
      · rw [if_neg hch] at hc
        simp only [List.mem_cons] at hc
        have hlen : (content.take (if t - br < blockSize then t - br else blockSize)).length
            ≤ t - br := by
          rw [List.length_take]
          split <;> omega
        rcases hc with rfl | hc
        · omega
        · exact ih _ _ _ (by omega) c hc
    · simp [verifyLoop, hbr] at hc

theorem verifyLoop_fst_lower (fuel : Nat) : ∀ br t content,
    ∀ c ∈ (verifyLoop fuel br t content).1, br ≤ c := by
  induction fuel with
  | zero => intro br t content c hc; simp [verifyLoop] at hc
  | succ f ih =>
    intro br t content c hc
    by_cases hbr : br < t
    · simp only [verifyLoop, if_pos hbr] at hc
      by_cases hch : (content.take (if t - br < blockSize then t - br else blockSize)).length = 0
      · rw [if_pos hch] at hc; simp at hc
      · rw [if_neg hch] at hc
        simp only [List.mem_cons] at hc
        rcases hc with rfl | hc
        · omega
        · have := ih _ _ _ c hc
          omega
    · simp [verifyLoop, hbr] at hc

theorem verifyLoop_fst_chain (fuel : Nat) : ∀ br t content,
    List.Chain' (· ≤ ·) ((verifyLoop fuel br t content).1) := by
  induction fuel with
  | zero => intro br t content; simp [verifyLoop]
  | succ f ih =>
    intro br t content
    by_cases hbr : br < t
    · simp only [verifyLoop, if_pos hbr]
      by_cases hch : (content.take (if t - br < blockSize then t - br else blockSize)).length = 0
      · rw [if_pos hch]; simp
      · rw [if_neg hch]
        refine List.chain'_cons'.mpr ⟨?_, ih _ _ _⟩
        intro y hy
        exact verifyLoop_fst_lower f _ t _ y (List.mem_of_mem_head? hy)
    · simp [verifyLoop, hbr]

theorem fillCums_le (D : Nat) : ∀ c ∈ fillCums D, c ≤ D := fillSteps_snd_le D 0 D

theorem divQ_nonneg_le_one (c d : Nat) (h : c ≤ d) :
    0 ≤ (c : ℚ) / (d : ℚ) ∧ (c : ℚ) / (d : ℚ) ≤ 1 := by
  rcases Nat.eq_zero_or_pos d with hd | hd
  · subst hd
    have : c = 0 := by omega
    subst this
    norm_num
  · have hd' : (0 : ℚ) < d := by exact_mod_cast hd
    constructor
    · positivity
    · rw [div_le_one hd']
      exact_mod_cast h

theorem divQ_mono (c c' d : Nat) (h : c ≤ c') : (c : ℚ) / (d : ℚ) ≤ (c' : ℚ) / (d : ℚ) := by
  rcases Nat.eq_zero_or_pos d with hd | hd
  · subst hd; simp
  · have hd' : (0 : ℚ) < d := by exact_mod_cast hd
    exact (div_le_div_iff_of_pos_right hd').mpr (by exact_mod_cast h)

theorem fillFrac_bounds (c d : Nat) (h : c ≤ d) :
    1/4 ≤ fillFrac c d ∧ fillFrac c d ≤ 3/4 := by
  obtain ⟨h0, h1⟩ := divQ_nonneg_le_one c d h
  unfold fillFrac
  constructor <;> linarith

theorem fillFrac_mono (c c' d : Nat) (h : c ≤ c') : fillFrac c d ≤ fillFrac c' d := by
  have := divQ_mono c c' d h
  unfold fillFrac
  linarith

theorem verifyFrac_bounds (c d : Nat) (h : c ≤ d) :
    9/10 ≤ verifyFrac c d ∧ verifyFrac c d ≤ 1 := by
  obtain ⟨h0, h1⟩ := divQ_nonneg_le_one c d h
  unfold verifyFrac
  constructor <;> linarith

theorem verifyFrac_mono (c c' d : Nat) (h : c ≤ c') : verifyFrac c d ≤ verifyFrac c' d := by
  have := divQ_mono c c' d h
  unfold verifyFrac
  linarith

theorem chain_append_bound {l₁ l₂ : List ℚ} (a : ℚ)
    (c1 : List.Chain' (· ≤ ·) l₁) (c2 : List.Chain' (· ≤ ·) l₂)
    (h1 : ∀ x ∈ l₁, x ≤ a) (h2 : ∀ y ∈ l₂, a ≤ y) :
    List.Chain' (· ≤ ·) (l₁ ++ l₂) := by
  apply c1.append c2
  intro x hx y hy
  exact le_trans (h1 x (List.mem_of_mem_getLast? hx)) (h2 y (List.mem_of_mem_head? hy))

theorem glast_cons {a : ℚ} {l : List ℚ} (h : l.getLast? = some 1) :
    (a :: l).getLast? = some 1 := by
  cases l with
  | nil => simp at h
  | cons b t => rw [List.getLast?_cons_cons]; exact h

theorem glast_append (l : List ℚ) {r : List ℚ} (h : r.getLast? = some 1) :
    (l ++ r).getLast? = some 1 := by
  have hr : r ≠ [] := by intro he; subst he; simp at h
  rw [List.getLast?_append_of_ne_nil _ hr]
  exact h

theorem chain_ok_noverify (D : Nat) :
    List.Chain' (· ≤ ·)
      ((0:ℚ) :: 0 :: 1/20 :: 1/20 :: 1/10 :: 1/10 :: 1/5 :: 1/5 :: 1/4 :: 1/4 ::
        (List.map (fun c => fillFrac c D) (fillCums D) ++
          ([3/4, 3/4, 4/5, 9/10, 1] : List ℚ))) := by
  have hfillle : ∀ q ∈ List.map (fun c => fillFrac c D) (fillCums D),
      1/4 ≤ q ∧ q ≤ 3/4 := by
    intro q hq
    rcases List.mem_map.mp hq with ⟨c, hc, rfl⟩
    exact fillFrac_bounds c D (fillCums_le D c hc)
  have hfillchain : List.Chain' (· ≤ ·) (List.map (fun c => fillFrac c D) (fillCums D)) :=
    (List.chain'_map _).mpr ((fillSteps_snd_chain D 0 D).imp
      (fun a b hab => fillFrac_mono a b D hab))
  have htail : List.Chain' (· ≤ ·) ([3/4, 3/4, 4/5, 9/10, 1] : List ℚ) := by
    norm_num [List.Chain']
  have htailge : ∀ y ∈ ([3/4, 3/4, 4/5, 9/10, 1] : List ℚ), (3:ℚ)/4 ≤ y := by
    intro y hy
    simp only [List.mem_cons, List.mem_singleton, List.not_mem_nil, or_false] at hy
    rcases hy with rfl | rfl | rfl | rfl | rfl <;> norm_num
  have hmid : List.Chain' (· ≤ ·)
      (List.map (fun c => fillFrac c D) (fillCums D) ++ ([3/4, 3/4, 4/5, 9/10, 1] : List ℚ)) :=
    chain_append_bound (3/4) hfillchain htail (fun x hx => (hfillle x hx).2) htailge
  refine List.chain'_cons.mpr ⟨by norm_num, ?_⟩
  refine List.chain'_cons.mpr ⟨by norm_num, ?_⟩
  refine List.chain'_cons.mpr ⟨by norm_num, ?_⟩
  refine List.chain'_cons.mpr ⟨by norm_num, ?_⟩
  refine List.chain'_cons.mpr ⟨by norm_num, ?_⟩
  refine List.chain'_cons.mpr ⟨by norm_num, ?_⟩
  refine List.chain'_cons.mpr ⟨by norm_num, ?_⟩
  refine List.chain'_cons.mpr ⟨by norm_num, ?_⟩
  refine List.chain'_cons.mpr ⟨by norm_num, ?_⟩
  refine List.chain'_cons'.mpr ⟨?_, hmid⟩
  intro y hy
  rcases List.mem_append.mp (List.mem_of_mem_head? hy) with hf | ht
  · exact (hfillle y hf).1
  · exact le_trans (by norm_num) (htailge y ht)

theorem chain_ok_verify (D : Nat) (content : List Nat) :
    List.Chain' (· ≤ ·)
      ((0:ℚ) :: 0 :: 1/20 :: 1/20 :: 1/10 :: 1/10 :: 1/5 :: 1/5 :: 1/4 :: 1/4 ::
        (List.map (fun c => fillFrac c D) (fillCums D) ++
          3/4 :: 3/4 :: 4/5 :: 9/10 :: 9/10 ::
            (List.map (fun c => verifyFrac c D) (verifyLoop D 0 D content).1 ++ [1]))) := by
  have hfillle : ∀ q ∈ List.map (fun c => fillFrac c D) (fillCums D),
      1/4 ≤ q ∧ q ≤ 3/4 := by
    intro q hq
    rcases List.mem_map.mp hq with ⟨c, hc, rfl⟩
    exact fillFrac_bounds c D (fillCums_le D c hc)
  have hverle : ∀ q ∈ List.map (fun c => verifyFrac c D) (verifyLoop D 0 D content).1,
      9/10 ≤ q ∧ q ≤ 1 := by
    intro q hq
    rcases List.mem_map.mp hq with ⟨c, hc, rfl⟩
    exact verifyFrac_bounds c D (verifyLoop_fst_le D 0 D content (by omega) c hc)
  have hfillchain : List.Chain' (· ≤ ·) (List.map (fun c => fillFrac c D) (fillCums D)) :=
    (List.chain'_map _).mpr ((fillSteps_snd_chain D 0 D).imp
      (fun a b hab => fillFrac_mono a b D hab))
  have hverchain : List.Chain' (· ≤ ·)
      (List.map (fun c => verifyFrac c D) (verifyLoop D 0 D content).1) :=
    (List.chain'_map _).mpr ((verifyLoop_fst_chain D 0 D content).imp
      (fun a b hab => verifyFrac_mono a b D hab))
  have htail2 : List.Chain' (· ≤ ·)
      (List.map (fun c => verifyFrac c D) (verifyLoop D 0 D content).1 ++ [1]) := by
    refine chain_append_bound 1 hverchain (List.chain'_singleton 1)
      (fun x hx => (hverle x hx).2) ?_
    intro y hy
    rcases List.mem_singleton.mp hy with rfl
    norm_num
  have htailge : ∀ y ∈ ((3:ℚ)/4 :: 3/4 :: 4/5 :: 9/10 :: 9/10 ::
      (List.map (fun c => verifyFrac c D) (verifyLoop D 0 D content).1 ++ [1])),
      (3:ℚ)/4 ≤ y := by
    intro y hy
    simp only [List.mem_cons, List.mem_append, List.mem_singleton,
      List.not_mem_nil, or_false] at hy
    rcases hy with rfl | rfl | rfl | rfl | rfl | hv | rfl
    · norm_num
    · norm_num
    · norm_num
    · norm_num
    · norm_num
    · exact le_trans (by norm_num) (hverle y hv).1
    · norm_num
  have htail : List.Chain' (· ≤ ·) ((3:ℚ)/4 :: 3/4 :: 4/5 :: 9/10 :: 9/10 ::
      (List.map (fun c => verifyFrac c D) (verifyLoop D 0 D content).1 ++ [1])) := by
    refine List.chain'_cons.mpr ⟨by norm_num, ?_⟩
    refine List.chain'_cons.mpr ⟨by norm_num, ?_⟩
    refine List.chain'_cons.mpr ⟨by norm_num, ?_⟩
    refine List.chain'_cons.mpr ⟨by norm_num, ?_⟩
    refine List.chain'_cons'.mpr ⟨?_, htail2⟩
    intro y hy
    rcases List.mem_append.mp (List.mem_of_mem_head? hy) with hv | h1
    · exact le_trans (by norm_num) (hverle y hv).1
    · rcases List.mem_singleton.mp h1 with rfl
      norm_num
  have hmid : List.Chain' (· ≤ ·)
      (List.map (fun c => fillFrac c D) (fillCums D) ++
        (3:ℚ)/4 :: 3/4 :: 4/5 :: 9/10 :: 9/10 ::
          (List.map (fun c => verifyFrac c D) (verifyLoop D 0 D content).1 ++ [1])) :=
    chain_append_bound (3/4) hfillchain htail (fun x hx => (hfillle x hx).2) htailge
  refine List.chain'_cons.mpr ⟨by norm_num, ?_⟩
  refine List.chain'_cons.mpr ⟨by norm_num, ?_⟩
  refine List.chain'_cons.mpr ⟨by norm_num, ?_⟩
  refine List.chain'_cons.mpr ⟨by norm_num, ?_⟩
  refine List.chain'_cons.mpr ⟨by norm_num, ?_⟩
  refine List.chain'_cons.mpr ⟨by norm_num, ?_⟩
  refine List.chain'_cons.mpr ⟨by norm_num, ?_⟩
  refine List.chain'_cons.mpr ⟨by norm_num, ?_⟩
  refine List.chain'_cons.mpr ⟨by norm_num, ?_⟩
  refine List.chain'_cons'.mpr ⟨?_, hmid⟩
  intro y hy
  rcases List.mem_append.mp (List.mem_of_mem_head? hy) with hf | ht
  · exact (hfillle y hf).1
  · exact le_trans (by norm_num) (htailge y ht)

theorem glast_ok_noverify (D : Nat) :
    ((0:ℚ) :: 0 :: 1/20 :: 1/20 :: 1/10 :: 1/10 :: 1/5 :: 1/5 :: 1/4 :: 1/4 ::
        (List.map (fun c => fillFrac c D) (fillCums D) ++
          ([3/4, 3/4, 4/5, 9/10, 1] : List ℚ))).getLast? = some 1 := by
  repeat first | rfl | apply glast_append | apply glast_cons

theorem glast_ok_verify (D : Nat) (content : List Nat) :
    ((0:ℚ) :: 0 :: 1/20 :: 1/20 :: 1/10 :: 1/10 :: 1/5 :: 1/5 :: 1/4 :: 1/4 ::
        (List.map (fun c => fillFrac c D) (fillCums D) ++
          3/4 :: 3/4 :: 4/5 :: 9/10 :: 9/10 ::
            (List.map (fun c => verifyFrac c D) (verifyLoop D 0 D content).1 ++ [1]))).getLast?
      = some 1 := by
  repeat first | rfl | apply glast_append | apply glast_cons

set_option maxHeartbeats 1000000 in
/-- Claim C2: for every session of `perform_luks_crypto_wipe` that returns
`Ok` (every stage primitive succeeding), the progress fractions passed to
the callback form a monotonically non-decreasing sequence whose last
element is exactly 1. -/
theorem claim_C2_progress_monotone (env : Env) (device : String) (verify : Bool)
    (h : exceptOk (perform_luks_crypto_wipe env device verify).2 = true) :
    List.Chain' (· ≤ ·) (progressFracs (perform_luks_crypto_wipe env device verify).1)
    ∧ (progressFracs (perform_luks_crypto_wipe env device verify).1).getLast? = some 1 := by
  rw [perform_snd] at h
  rw [perform_fst]
  unfold performResult at h
  unfold performTrace
  split_ifs at h ⊢ <;>
    first
      | (simp [exceptOk] at h; done)
      | (simp only [progressFracs_append, progressFracs_nil,
          progressFracs_cons_progress, progressFracs_cons_unmount,
          progressFracs_cons_settle, progressFracs_cons_format,
          progressFracs_cons_open, progressFracs_cons_close,
          progressFracs_cons_destroy, fillProgressEvents, verifyProgressEvents,
          progressFracs_map, List.append_assoc, List.cons_append, List.nil_append]
         exact ⟨chain_ok_verify env.deviceSize env.postContent,
           glast_ok_verify env.deviceSize env.postContent⟩)
      | (simp only [progressFracs_append, progressFracs_nil,
          progressFracs_cons_progress, progressFracs_cons_unmount,
          progressFracs_cons_settle, progressFracs_cons_format,
          progressFracs_cons_open, progressFracs_cons_close,
          progressFracs_cons_destroy, fillProgressEvents, verifyProgressEvents,
          progressFracs_map, List.append_assoc, List.cons_append, List.nil_append]
         exact ⟨chain_ok_noverify env.deviceSize, glast_ok_noverify env.deviceSize⟩)

/-- Witness for C2 at a concrete fully successful verified session. -/
theorem claim_C2_progress_monotone_witness :
    exceptOk (perform_luks_crypto_wipe performEnvW "/dev/sdb" true).2 = true
    ∧ List.Chain' (· ≤ ·)
        (progressFracs (perform_luks_crypto_wipe performEnvW "/dev/sdb" true).1)
    ∧ (progressFracs (perform_luks_crypto_wipe performEnvW "/dev/sdb" true).1).getLast?
        = some 1 :=
  ⟨rfl, (claim_C2_progress_monotone performEnvW "/dev/sdb" true rfl).1,
   (claim_C2_progress_monotone performEnvW "/dev/sdb" true rfl).2⟩

end CoreWipe
